import Mathlib

/-!
Verification development for `alibi_detect/models/trainer.py`.

The module contains a single function `trainer` that drives a standard
epoch/batch training loop over an external ML framework: it builds a
shuffled, batched dataset from the training arrays, and for each batch runs
a forward pass, assembles the loss (optionally with keyword arguments and
auxiliary model losses), computes gradients, applies one optimizer step,
and optionally reports progress (padded per-example loss display plus an
auxiliary metric).

We give a shallow embedding: the framework capabilities (model call, loss
function, autodiff, optimizer, metric) are abstract function fields of a
`Framework` structure; arrays are lists; the shuffler is an explicit oracle
parameter (one permutation per epoch); the trainer is a pure fold that
returns the final mutable state together with a complete per-batch trace of
what the source computed. A second embedding `trainerE` runs the same loop
in the `Except` monad with fallible framework calls, to reason about error
propagation (the source has no try/except).
-/

/-- A numpy value as observed by `loss.numpy()` / `metric.result().numpy()`:
a shape together with the flat data, with rational entries standing for the
floating-point payload. A scalar has shape `[]`. -/
structure NpArr where
  shape : List Nat
  data : List Rat
deriving DecidableEq, Repr

/-- Source `np.mean` of a 1-d array (`loss_val.mean()` in the source). -/
def npMean (l : List Rat) : Rat := l.sum / l.length

/-- The verbose-branch display adjustment of the source (lines 95-99):

    if loss_val.shape != (batch_size,) and loss_val.shape:
        add_mean = np.ones((batch_size - loss_val.shape[0],)) * loss_val.mean()
        loss_val = np.r_[loss_val, add_mean]

`np.ones` with a negative dimension raises, and `np.r_` of arrays of
different ndim raises; both are modelled as `Except.error`. -/
def padDisplay (batch_size : Nat) (a : NpArr) : Except String NpArr :=
  if a.shape ≠ [batch_size] ∧ a.shape ≠ [] then
    if batch_size < a.shape.headD 0 then
      Except.error "negative dimensions are not allowed"
    else if a.shape.length ≠ 1 then
      Except.error "array dimension mismatch in np.r_"
    else
      Except.ok ⟨[a.data.length + (batch_size - a.shape.headD 0)],
                 a.data ++ List.replicate (batch_size - a.shape.headD 0) (npMean a.data)⟩
  else Except.ok a

/-- The condition of the source's padding branch:
`loss_val.shape != (batch_size,) and loss_val.shape`. -/
def padAttempted (batch_size : Nat) (a : NpArr) : Prop :=
  a.shape ≠ [batch_size] ∧ a.shape ≠ []

instance (B : Nat) (a : NpArr) : Decidable (padAttempted B a) := by
  unfold padAttempted; infer_instance

/-- Result of `model(X_train_batch)`: the source distinguishes
`tf.is_tensor(preds)` (a single tensor) from a sequence of outputs. -/
inductive ModelOutput (P : Type) where
  | tensor (t : P)
  | seq (ts : List P)
deriving DecidableEq, Repr

/-- Python's built-in `sum` over a list (starts from the zero element):
`sum(model.losses)` in the source. -/
def pySum {L : Type} (add : L → L → L) (zero : L) (ls : List L) : L :=
  ls.foldl add zero

/-- Fuel-indexed worker for `batched`; fuel is the list length, so the
definition is structural and computes by `rfl`/`decide`. -/
def batchedGo {α : Type} : Nat → Nat → List α → List (List α)
  | 0, _, _ => []
  | _ + 1, _, [] => []
  | fuel + 1, B, x :: xs => ((x :: xs).take B) :: batchedGo fuel B ((x :: xs).drop B)

/-- Source `tf.data.Dataset.batch(batch_size)`: split a (already shuffled) list of
dataset elements into consecutive chunks of size `B`, the last chunk
possibly shorter. -/
def batched {α : Type} (B : Nat) (xs : List α) : List (List α) :=
  batchedGo xs.length B xs

/-- The external ML-framework capabilities consumed by `trainer`, as pure
functions. Type parameters: `T` tensor rows (features and labels), `P`
prediction tensors, `L` loss tensors, `G` gradients, `W` the model's
trainable weights, `O` optimizer slots, `MS` metric state, `K` the
keyword-argument payload for the loss function. -/
structure Framework (T P L G W O MS K : Type) where
  /-- Source `model(X_train_batch)`: forward pass on the current weights. -/
  model_call : W → List T → ModelOutput P
  /-- Source `model.losses`: auxiliary internal losses, read after the forward pass
  (they may depend on weights and on the input batch). -/
  model_losses : W → List T → List L
  /-- Source `loss_fn(*args, **kwargs)`: first positional argument is the ground
  truth, then the model outputs; `none` kwargs means no keyword arguments. -/
  loss_fn : List T → List P → Option K → L
  /-- Addition on loss tensors (`loss += sum(model.losses)`). -/
  loss_add : L → L → L
  /-- The zero that Python's built-in `sum` starts from. -/
  loss_zero : L
  /-- Source `loss.numpy()`. -/
  loss_numpy : L → NpArr
  /-- Source `tape.gradient(loss, model.trainable_weights)`. -/
  tape_gradient : W → L → G
  /-- Source `optimizer.apply_gradients(zip(grads, model.trainable_weights))`:
  consumes gradients, returns updated optimizer slots and weights. -/
  apply_gradients : O → W → G → O × W
  /-- Source `log_metric[1](ground_truth, preds)`: stateful metric update. -/
  metric_update : MS → List T → ModelOutput P → MS
  /-- Source `log_metric[1].result().numpy()`. -/
  metric_result : MS → NpArr

/-- The arguments of one `trainer(...)` invocation. The model's initial
trainable weights and the optimizer's initial slots are `weights0` and
`opt0` (in the source they live inside the mutable `model`/`optimizer`
objects). `log_metric` carries the metric's display name and its initial
state. -/
structure TrainerArgs (T K MS W O : Type) where
  weights0 : W
  X_train : List T
  y_train : Option (List T)
  opt0 : O
  loss_fn_kwargs : Option K
  epochs : Nat
  batch_size : Nat
  buffer_size : Nat
  verbose : Bool
  log_metric : Option (String × MS)
deriving DecidableEq

/-- The mutable state threaded through the loop: the model's trainable
weights, the optimizer slots, and the metric state (present exactly when a
`log_metric` pair was supplied). -/
structure TrainState (W O MS : Type) where
  weights : W
  opt : O
  metric : Option MS
deriving DecidableEq, Repr

/-- The observable actions of one batch iteration, in source order. -/
inductive BEvent where
  | forward_pass
  | loss_call
  | grad_comp
  | opt_step
  | metric_upd
  | pbar_step
deriving DecidableEq, Repr

deriving instance DecidableEq for Except

/-- Trace of one batch iteration: every intermediate value the source
computes, plus the display-side observations of the verbose branch. -/
structure BatchTrace (T P L G W O MS K : Type) where
  /-- The dataset elements of this mini-batch (feature row, optional label). -/
  batch : List (T × Option T)
  /-- Source variable `X_train_batch`. -/
  X_batch : List T
  /-- Source variable `ground_truth`. -/
  ground_truth : List T
  /-- Source variable `preds`. -/
  preds : ModelOutput P
  /-- First positional argument actually passed to `loss_fn`. -/
  loss_call_gt : List T
  /-- Remaining positional arguments actually passed to `loss_fn`. -/
  loss_call_outs : List P
  /-- Keyword arguments actually passed to `loss_fn`. -/
  loss_call_kwargs : Option K
  /-- The value `loss_fn` returned. -/
  fn_loss : L
  /-- Source value `model.losses`. -/
  aux_losses : List L
  /-- Source variable `loss` after the auxiliary-loss addition: the tensor fed to the tape. -/
  total_loss : L
  /-- Source variable `grads`. -/
  grads : G
  w_pre : W
  w_post : W
  opt_pre : O
  opt_post : O
  metric_pre : Option MS
  metric_post : Option MS
  /-- The `(ground_truth, preds)` pair the metric was updated with, if any. -/
  metric_call : Option (List T × ModelOutput P)
  /-- The (possibly padded) `loss_val` computed for display, if verbose. -/
  loss_display : Option (Except String NpArr)
  /-- The `values` list handed to `pbar.add`, if it was reached. -/
  pbar_values : Option (List (String × NpArr))
  /-- How far `pbar.add` advanced the bar in this iteration. -/
  pbar_add : Nat
  /-- The observable actions, in source order. -/
  events : List BEvent
deriving DecidableEq

/-- Trace of one epoch: the `Progbar` target (if verbose) and the batch
iterations. -/
structure EpochTrace (T P L G W O MS K : Type) where
  pbar_target : Option Nat
  steps : List (BatchTrace T P L G W O MS K)
deriving DecidableEq

/-- Source `tf.data.Dataset.from_tensor_slices`: the per-element view of the
training arrays. With labels, features and labels are zipped positionally;
without, each element is a bare feature row. This is the success value of
the eager dataset construction; the construction itself can raise on
mismatched first dimensions, which `from_tensor_slicesE` models. -/
def train_data {T : Type} (X_train : List T) (y_train : Option (List T)) :
    List (T × Option T) :=
  match y_train with
  | none => X_train.map (fun x => (x, none))
  | some y => (X_train.zip y).map (fun p => (p.1, some p.2))

/-- Source `int(np.ceil(X_train.shape[0] / batch_size))`, the `Progbar` target.
(The source computes this through float division; for the sizes at stake it
agrees with exact ceiling division.) This is the success value; the
division raises at `batch_size = 0`, which `n_minibatchE` models. -/
def n_minibatch {T K MS W O : Type} (A : TrainerArgs T K MS W O) : Nat :=
  (A.X_train.length + A.batch_size - 1) / A.batch_size

variable {T P L G W O MS K : Type}

/-- One iteration of the inner loop of `trainer` (source lines 62-104):
forward pass, loss assembly, gradient computation, optimizer step, and the
verbose-only display/metric block. Returns the new state and the batch
trace. -/
def batchStep (F : Framework T P L G W O MS K) (A : TrainerArgs T K MS W O)
    (s : TrainState W O MS) (batch : List (T × Option T)) :
    TrainState W O MS × BatchTrace T P L G W O MS K :=
  let X_train_batch : List T := batch.map Prod.fst
  let ground_truth : List T :=
    match A.y_train with
    | none => X_train_batch
    | some _ => batch.filterMap Prod.snd
  let preds := F.model_call s.weights X_train_batch
  let args_outs : List P :=
    match preds with
    | ModelOutput.tensor p => [p]
    | ModelOutput.seq ps => ps
  let fn_loss := F.loss_fn ground_truth args_outs A.loss_fn_kwargs
  let aux := F.model_losses s.weights X_train_batch
  let loss := if aux.isEmpty then fn_loss
              else F.loss_add fn_loss (pySum F.loss_add F.loss_zero aux)
  let grads := F.tape_gradient s.weights loss
  let ow := F.apply_gradients s.opt s.weights grads
  let s2 : TrainState W O MS := ⟨ow.2, ow.1, s.metric⟩
  let base : BatchTrace T P L G W O MS K :=
    { batch := batch
      X_batch := X_train_batch
      ground_truth := ground_truth
      preds := preds
      loss_call_gt := ground_truth
      loss_call_outs := args_outs
      loss_call_kwargs := A.loss_fn_kwargs
      fn_loss := fn_loss
      aux_losses := aux
      total_loss := loss
      grads := grads
      w_pre := s.weights
      w_post := ow.2
      opt_pre := s.opt
      opt_post := ow.1
      metric_pre := s.metric
      metric_post := s.metric
      metric_call := none
      loss_display := none
      pbar_values := none
      pbar_add := 0
      events := [BEvent.forward_pass, BEvent.loss_call, BEvent.grad_comp,
                 BEvent.opt_step] }
  if A.verbose then
    match padDisplay A.batch_size (F.loss_numpy loss) with
    | Except.error err =>
      (s2, { base with loss_display := some (Except.error err) })
    | Except.ok v =>
      match A.log_metric, s.metric with
      | some nmm, some m =>
        let m2 := F.metric_update m ground_truth preds
        (⟨ow.2, ow.1, some m2⟩,
         { base with
             loss_display := some (Except.ok v)
             metric_post := some m2
             metric_call := some (ground_truth, preds)
             pbar_values := some [("loss", v), (nmm.1, F.metric_result m2)]
             pbar_add := 1
             events := base.events ++ [BEvent.metric_upd, BEvent.pbar_step] })
      | _, _ =>
        (s2, { base with
                 loss_display := some (Except.ok v)
                 pbar_values := some [("loss", v)]
                 pbar_add := 1
                 events := base.events ++ [BEvent.pbar_step] })
  else (s2, base)

/-- The inner loop of `trainer`: fold `batchStep` over the mini-batches of
one epoch, collecting the traces. -/
def runBatches (F : Framework T P L G W O MS K) (A : TrainerArgs T K MS W O) :
    TrainState W O MS → List (List (T × Option T)) →
    TrainState W O MS × List (BatchTrace T P L G W O MS K)
  | s, [] => (s, [])
  | s, b :: bs =>
    let r := batchStep F A s b
    let rest := runBatches F A r.1 bs
    (rest.1, r.2 :: rest.2)

/-- One epoch of `trainer`: a fresh `Progbar` if verbose, then the batch
loop over the (already shuffled) dataset split into mini-batches. -/
def runEpoch (F : Framework T P L G W O MS K) (A : TrainerArgs T K MS W O)
    (shuffled : List (T × Option T)) (s : TrainState W O MS) :
    TrainState W O MS × EpochTrace T P L G W O MS K :=
  let r := runBatches F A s (batched A.batch_size shuffled)
  (r.1, { pbar_target := if A.verbose then some (n_minibatch A) else none
          steps := r.2 })

/-- The epoch loop: the dataset is re-shuffled on every iteration (the
framework's shuffler reshuffles each epoch), modelled by the oracle
`shuffle` applied to the epoch index. -/
def runEpochs (F : Framework T P L G W O MS K) (A : TrainerArgs T K MS W O)
    (shuffle : Nat → List (T × Option T) → List (T × Option T))
    (data : List (T × Option T)) :
    TrainState W O MS → List Nat →
    TrainState W O MS × List (EpochTrace T P L G W O MS K)
  | s, [] => (s, [])
  | s, e :: es =>
    let r := runEpoch F A (shuffle e data) s
    let rest := runEpochs F A shuffle data r.1 es
    (rest.1, r.2 :: rest.2)

/-- The state the source starts from: the caller's model weights and
optimizer slots, and the supplied metric's initial state. -/
def initState {T K MS W O : Type} (A : TrainerArgs T K MS W O) :
    TrainState W O MS :=
  ⟨A.weights0, A.opt0, A.log_metric.map Prod.snd⟩

/-- The `trainer` function of the source: build the per-element dataset,
then run `epochs` epochs, each over a freshly shuffled batching of the
data. The source returns `None`; its observable effects are the final
mutable state (returned first) and, if verbose, the progress display
(recorded in the trace, returned second). -/
def trainer (F : Framework T P L G W O MS K)
    (shuffle : Nat → List (T × Option T) → List (T × Option T))
    (A : TrainerArgs T K MS W O) :
    TrainState W O MS × List (EpochTrace T P L G W O MS K) :=
  runEpochs F A shuffle (train_data A.X_train A.y_train) (initState A)
    (List.range A.epochs)

theorem batchedGo_flatten {α : Type} (B : Nat) (hB : 0 < B) :
    ∀ (fuel : Nat) (xs : List α), xs.length ≤ fuel → (batchedGo fuel B xs).flatten = xs := by
  intro fuel
  induction fuel with
  | zero =>
    intro xs hxs
    cases xs with
    | nil => rfl
    | cons x xs => simp at hxs
  | succ n ih =>
    intro xs hxs
    cases xs with
    | nil => rfl
    | cons x xs =>
      have hlen : ((x :: xs).drop B).length ≤ n := by
        simp only [List.length_drop, List.length_cons] at hxs ⊢
        omega
      simp only [batchedGo, List.flatten_cons, ih _ hlen, List.take_append_drop]

theorem batched_flatten {α : Type} (B : Nat) (hB : 0 < B) (xs : List α) :
    (batched B xs).flatten = xs :=
  batchedGo_flatten B hB xs.length xs le_rfl

theorem batchedGo_length {α : Type} (B : Nat) (hB : 0 < B) :
    ∀ (fuel : Nat) (xs : List α), xs.length ≤ fuel →
      (batchedGo fuel B xs).length = (xs.length + B - 1) / B := by
  intro fuel
  induction fuel with
  | zero =>
    intro xs hxs
    cases xs with
    | nil =>
      simp only [batchedGo, List.length_nil]
      exact (Nat.div_eq_of_lt (by omega)).symm
    | cons x xs => simp at hxs
  | succ n ih =>
    intro xs hxs
    cases xs with
    | nil =>
      simp only [batchedGo, List.length_nil]
      exact (Nat.div_eq_of_lt (by omega)).symm
    | cons x xs =>
      have hlen : ((x :: xs).drop B).length ≤ n := by
        simp only [List.length_drop, List.length_cons] at hxs ⊢
        omega
      simp only [batchedGo, List.length_cons, ih _ hlen, List.length_drop,
        List.length_cons]
      rcases Nat.le_total B (xs.length + 1) with hle | hlt
      · have e1 : xs.length + 1 - B + B - 1 = xs.length := by omega
        have e2 : xs.length + 1 + B - 1 = xs.length + B := by omega
        rw [e1, e2, Nat.add_div_right _ hB]
      · have e1 : xs.length + 1 - B + B - 1 = B - 1 := by omega
        have e2 : xs.length + 1 + B - 1 = xs.length + B := by omega
        rw [e1, e2, Nat.add_div_right _ hB, Nat.div_eq_of_lt (show B - 1 < B by omega),
          Nat.div_eq_of_lt (show xs.length < B by omega)]

theorem batched_length {α : Type} (B : Nat) (hB : 0 < B) (xs : List α) :
    (batched B xs).length = (xs.length + B - 1) / B :=
  batchedGo_length B hB xs.length xs le_rfl

theorem mem_of_mem_batched {α : Type} {B : Nat} (hB : 0 < B) {xs : List α}
    {b : List α} (hb : b ∈ batched B xs) {x : α} (hx : x ∈ b) : x ∈ xs := by
  rw [← batched_flatten B hB xs]
  exact List.mem_flatten.mpr ⟨b, hb, hx⟩

/-- Fallible framework capabilities: the same operations as `Framework`,
each allowed to raise (malformed inputs, shape mismatches, NaN gradients,
optimizer instability, ...), modelled in `Except`. -/
structure FrameworkE (T P L G W O MS K : Type) where
  model_call : W → List T → Except String (ModelOutput P)
  model_losses : W → List T → Except String (List L)
  loss_fn : List T → List P → Option K → Except String L
  loss_add : L → L → L
  loss_zero : L
  loss_numpy : L → Except String NpArr
  tape_gradient : W → L → Except String G
  apply_gradients : O → W → G → Except String (O × W)
  metric_update : MS → List T → ModelOutput P → Except String MS
  metric_result : MS → Except String NpArr

/-- The batch iteration with fallible framework calls, in source order;
the source installs no handler, so each call is a plain monadic bind and
the first error aborts the call. -/
def batchStepE (F : FrameworkE T P L G W O MS K) (A : TrainerArgs T K MS W O)
    (s : TrainState W O MS) (batch : List (T × Option T)) :
    Except String (TrainState W O MS) := do
  let X_train_batch : List T := batch.map Prod.fst
  let ground_truth : List T :=
    match A.y_train with
    | none => X_train_batch
    | some _ => batch.filterMap Prod.snd
  let preds ← F.model_call s.weights X_train_batch
  let args_outs : List P :=
    match preds with
    | ModelOutput.tensor p => [p]
    | ModelOutput.seq ps => ps
  let fn_loss ← F.loss_fn ground_truth args_outs A.loss_fn_kwargs
  let aux ← F.model_losses s.weights X_train_batch
  let loss := if aux.isEmpty then fn_loss
              else F.loss_add fn_loss (pySum F.loss_add F.loss_zero aux)
  let grads ← F.tape_gradient s.weights loss
  let ow ← F.apply_gradients s.opt s.weights grads
  if A.verbose then
    let lossNp ← F.loss_numpy loss
    let _v ← padDisplay A.batch_size lossNp
    match A.log_metric, s.metric with
    | some _, some m => do
      let m2 ← F.metric_update m ground_truth preds
      let _r ← F.metric_result m2
      pure ⟨ow.2, ow.1, some m2⟩
    | _, _ => pure ⟨ow.2, ow.1, s.metric⟩
  else
    pure ⟨ow.2, ow.1, s.metric⟩

/-- The inner loop with fallible calls. -/
def runBatchesE (F : FrameworkE T P L G W O MS K) (A : TrainerArgs T K MS W O) :
    TrainState W O MS → List (List (T × Option T)) →
    Except String (TrainState W O MS)
  | s, [] => Except.ok s
  | s, b :: bs => batchStepE F A s b >>= fun s2 => runBatchesE F A s2 bs

/-- One epoch with fallible calls. -/
def runEpochE (F : FrameworkE T P L G W O MS K) (A : TrainerArgs T K MS W O)
    (shuffled : List (T × Option T)) (s : TrainState W O MS) :
    Except String (TrainState W O MS) :=
  runBatchesE F A s (batched A.batch_size shuffled)

/-- The epoch loop with fallible calls. -/
def runEpochsE (F : FrameworkE T P L G W O MS K) (A : TrainerArgs T K MS W O)
    (shuffle : Nat → List (T × Option T) → List (T × Option T))
    (data : List (T × Option T)) :
    TrainState W O MS → List Nat → Except String (TrainState W O MS)
  | s, [] => Except.ok s
  | s, e :: es =>
    runEpochE F A (shuffle e data) s >>= fun s2 => runEpochsE F A shuffle data s2 es

/-- The epoch loop of `trainer` with fallible framework calls. The pre-loop
data preparation of source lines 48-55, which can itself raise, is modelled
separately; `trainerPrepE` below is the full-call embedding that runs it
before this loop. -/
def trainerE (F : FrameworkE T P L G W O MS K)
    (shuffle : Nat → List (T × Option T) → List (T × Option T))
    (A : TrainerArgs T K MS W O) : Except String (TrainState W O MS) :=
  runEpochsE F A shuffle (train_data A.X_train A.y_train) (initState A)
    (List.range A.epochs)


/-- Source `tf.data.Dataset.from_tensor_slices(train_data)` (line 53): the
per-element dataset is built eagerly before the epoch loop; with labels it
raises a `ValueError` when the first dimensions of the feature and label
arrays differ. On success it yields exactly `train_data`. -/
def from_tensor_slicesE {T : Type} (X_train : List T)
    (y_train : Option (List T)) : Except String (List (T × Option T)) :=
  match y_train with
  | none => Except.ok (X_train.map (fun x => (x, none)))
  | some y =>
    if y.length = X_train.length then
      Except.ok ((X_train.zip y).map (fun p => (p.1, some p.2)))
    else
      Except.error "ValueError: X_train and y_train have incompatible first dimensions"

/-- Source line 54, `.shuffle(buffer_size=buffer_size).batch(batch_size)`:
both dataset ops are created eagerly before the epoch loop and each
validates a positive size, raising otherwise. -/
def dataset_prepE {T K MS W O : Type} (A : TrainerArgs T K MS W O) :
    Except String Unit :=
  if A.buffer_size = 0 then
    Except.error "InvalidArgumentError: buffer_size must be greater than zero"
  else if A.batch_size = 0 then
    Except.error "InvalidArgumentError: batch_size must be greater than zero"
  else Except.ok ()

/-- Source line 55, `int(np.ceil(X_train.shape[0] / batch_size))`: the
division raises a `ZeroDivisionError` at `batch_size = 0`; otherwise the
value is the exact ceiling `n_minibatch`. -/
def n_minibatchE {T K MS W O : Type} (A : TrainerArgs T K MS W O) :
    Except String Nat :=
  if A.batch_size = 0 then Except.error "ZeroDivisionError: division by zero"
  else Except.ok (n_minibatch A)

/-- The full `trainer(...)` call in the fallible embedding: the pre-loop
data preparation of source lines 48-55 runs first — and can itself raise —
and only then does the epoch loop (`runEpochsE`) run. With `epochs = 0` the
loop body never executes, but the preparation still does. -/
def trainerPrepE (F : FrameworkE T P L G W O MS K)
    (shuffle : Nat → List (T × Option T) → List (T × Option T))
    (A : TrainerArgs T K MS W O) : Except String (TrainState W O MS) := do
  let data ← from_tensor_slicesE A.X_train A.y_train
  let _ds ← dataset_prepE A
  let _nmb ← n_minibatchE A
  runEpochsE F A shuffle data (initState A) (List.range A.epochs)

/-!  Concrete instances used by the witness checks. -/

/-- Concrete framework: single-tensor predictions, no auxiliary losses,
scalar loss display. -/
def Fw0 : Framework Nat Nat Rat Rat Rat Nat Rat Nat where
  model_call := fun _ xb => ModelOutput.tensor xb.sum
  model_losses := fun _ _ => []
  loss_fn := fun gt outs _ => ((gt.sum + outs.sum : Nat) : Rat)
  loss_add := (· + ·)
  loss_zero := 0
  loss_numpy := fun l => ⟨[], [l]⟩
  tape_gradient := fun _ l => l
  apply_gradients := fun o w g => (o + 1, w + g)
  metric_update := fun m gt _ => m + gt.length
  metric_result := fun m => ⟨[], [m]⟩

/-- Concrete framework whose loss display is a length-1 vector, so the
padding branch runs whenever the batch size exceeds 1. -/
def Fw1 : Framework Nat Nat Rat Rat Rat Nat Rat Nat where
  model_call := fun _ xb => ModelOutput.tensor xb.sum
  model_losses := fun _ _ => []
  loss_fn := fun gt outs _ => ((gt.sum + outs.sum : Nat) : Rat)
  loss_add := (· + ·)
  loss_zero := 0
  loss_numpy := fun l => ⟨[1], [l]⟩
  tape_gradient := fun _ l => l
  apply_gradients := fun o w g => (o + 1, w + g)
  metric_update := fun m gt _ => m + gt.length
  metric_result := fun m => ⟨[], [m]⟩

/-- Concrete framework with a two-output model, nonempty auxiliary model
losses, and kwargs-sensitive loss function. -/
def Fw2 : Framework Nat Nat Rat Rat Rat Nat Rat Nat where
  model_call := fun _ xb => ModelOutput.seq [xb.sum, xb.length]
  model_losses := fun _ xb => [(1 : Rat), xb.length]
  loss_fn := fun gt outs kw =>
    ((gt.sum + outs.sum : Nat) : Rat) + (match kw with | some k => (k : Rat) | none => 0)
  loss_add := (· + ·)
  loss_zero := 0
  loss_numpy := fun l => ⟨[], [l]⟩
  tape_gradient := fun _ l => l
  apply_gradients := fun o w g => (o + 1, w + g)
  metric_update := fun m gt _ => m + gt.length
  metric_result := fun m => ⟨[], [m]⟩

/-- Fallible concrete framework whose forward pass raises. -/
def FwErr : FrameworkE Nat Nat Rat Rat Rat Nat Rat Nat where
  model_call := fun _ _ => Except.error "boom"
  model_losses := fun _ _ => Except.ok []
  loss_fn := fun _ _ _ => Except.ok 0
  loss_add := (· + ·)
  loss_zero := 0
  loss_numpy := fun l => Except.ok ⟨[], [l]⟩
  tape_gradient := fun _ l => Except.ok l
  apply_gradients := fun o w g => Except.ok (o + 1, w + g)
  metric_update := fun m gt _ => Except.ok (m + gt.length)
  metric_result := fun m => Except.ok ⟨[], [m]⟩

/-- Concrete shuffle oracle: reverse the data each epoch (a permutation). -/
def shuffle0 : Nat → List (Nat × Option Nat) → List (Nat × Option Nat) :=
  fun _ l => l.reverse

/-- Unsupervised run: five examples, batch size 2, two epochs, verbose,
with a logged metric. -/
def argsC1 : TrainerArgs Nat Nat Rat Rat Nat where
  weights0 := 0
  X_train := [10, 20, 30, 40, 50]
  y_train := none
  opt0 := 0
  loss_fn_kwargs := none
  epochs := 2
  batch_size := 2
  buffer_size := 1024
  verbose := true
  log_metric := some ("acc", 0)

/-- Supervised run: three labelled examples, batch size 2, one epoch. -/
def argsC2 : TrainerArgs Nat Nat Rat Rat Nat where
  weights0 := 0
  X_train := [1, 2, 3]
  y_train := some [4, 5, 6]
  opt0 := 0
  loss_fn_kwargs := none
  epochs := 1
  batch_size := 2
  buffer_size := 1024
  verbose := true
  log_metric := none

/-- Run with loss-function keyword arguments supplied. -/
def argsC3 : TrainerArgs Nat Nat Rat Rat Nat where
  weights0 := 0
  X_train := [1, 2, 3]
  y_train := none
  opt0 := 0
  loss_fn_kwargs := some 7
  epochs := 1
  batch_size := 2
  buffer_size := 1024
  verbose := false
  log_metric := none

/-- Single-example run against the raising framework. -/
def argsC6 : TrainerArgs Nat Nat Rat Rat Nat where
  weights0 := 0
  X_train := [0]
  y_train := none
  opt0 := 0
  loss_fn_kwargs := none
  epochs := 1
  batch_size := 1
  buffer_size := 1024
  verbose := true
  log_metric := none

/-- Zero-epoch run. -/
def argsC9 : TrainerArgs Nat Nat Rat Rat Nat where
  weights0 := 0
  X_train := [1, 2, 3]
  y_train := none
  opt0 := 0
  loss_fn_kwargs := none
  epochs := 0
  batch_size := 2
  buffer_size := 1024
  verbose := true
  log_metric := some ("acc", 0)



/-- Fallible concrete framework in which every call succeeds. -/
def FwOkE : FrameworkE Nat Nat Rat Rat Rat Nat Rat Nat where
  model_call := fun _ xb => Except.ok (ModelOutput.tensor xb.sum)
  model_losses := fun _ _ => Except.ok []
  loss_fn := fun gt outs _ => Except.ok ((gt.sum + outs.sum : Nat) : Rat)
  loss_add := (· + ·)
  loss_zero := 0
  loss_numpy := fun l => Except.ok ⟨[], [l]⟩
  tape_gradient := fun _ l => Except.ok l
  apply_gradients := fun o w g => Except.ok (o + 1, w + g)
  metric_update := fun m gt _ => Except.ok (m + gt.length)
  metric_result := fun m => Except.ok ⟨[], [m]⟩

/-- Zero-epoch run with a label array of mismatched length. -/
def argsC9bad : TrainerArgs Nat Nat Rat Rat Nat where
  weights0 := 0
  X_train := [1, 2, 3]
  y_train := some [9]
  opt0 := 0
  loss_fn_kwargs := none
  epochs := 0
  batch_size := 2
  buffer_size := 1024
  verbose := true
  log_metric := none

/-- Zero-epoch run with batch size 0. -/
def argsC9zero : TrainerArgs Nat Nat Rat Rat Nat where
  weights0 := 0
  X_train := [1, 2, 3]
  y_train := none
  opt0 := 0
  loss_fn_kwargs := none
  epochs := 0
  batch_size := 0
  buffer_size := 1024
  verbose := true
  log_metric := none

/-- Zero-epoch run with shuffle buffer size 0. -/
def argsC9buf : TrainerArgs Nat Nat Rat Rat Nat where
  weights0 := 0
  X_train := [1, 2, 3]
  y_train := none
  opt0 := 0
  loss_fn_kwargs := none
  epochs := 0
  batch_size := 2
  buffer_size := 0
  verbose := true
  log_metric := none

theorem batchStep_batch (F : Framework T P L G W O MS K)
    (A : TrainerArgs T K MS W O) (s : TrainState W O MS)
    (b : List (T × Option T)) : (batchStep F A s b).2.batch = b := by
  simp only [batchStep]
  split
  · split
    · rfl
    · split <;> rfl
  · rfl

/-- All the non-display fields of a batch trace, read off the source's
straight-line computation; they are identical in every branch of the
verbose block. -/
theorem batchStep_core (F : Framework T P L G W O MS K)
    (A : TrainerArgs T K MS W O) (s : TrainState W O MS)
    (b : List (T × Option T)) :
    (batchStep F A s b).2.X_batch = b.map Prod.fst ∧
    (batchStep F A s b).2.ground_truth =
      (match A.y_train with
       | none => b.map Prod.fst
       | some _ => b.filterMap Prod.snd) ∧
    (batchStep F A s b).2.preds = F.model_call s.weights (b.map Prod.fst) ∧
    (batchStep F A s b).2.loss_call_gt = (batchStep F A s b).2.ground_truth ∧
    (batchStep F A s b).2.loss_call_outs =
      (match (batchStep F A s b).2.preds with
       | ModelOutput.tensor p => [p]
       | ModelOutput.seq ps => ps) ∧
    (batchStep F A s b).2.loss_call_kwargs = A.loss_fn_kwargs ∧
    (batchStep F A s b).2.fn_loss =
      F.loss_fn (batchStep F A s b).2.loss_call_gt
        (batchStep F A s b).2.loss_call_outs A.loss_fn_kwargs ∧
    (batchStep F A s b).2.aux_losses = F.model_losses s.weights (b.map Prod.fst) ∧
    (batchStep F A s b).2.total_loss =
      (if (batchStep F A s b).2.aux_losses.isEmpty then (batchStep F A s b).2.fn_loss
       else F.loss_add (batchStep F A s b).2.fn_loss
         (pySum F.loss_add F.loss_zero (batchStep F A s b).2.aux_losses)) ∧
    (batchStep F A s b).2.grads =
      F.tape_gradient s.weights (batchStep F A s b).2.total_loss ∧
    (batchStep F A s b).2.w_pre = s.weights ∧
    (batchStep F A s b).2.opt_pre = s.opt ∧
    ((batchStep F A s b).2.opt_post, (batchStep F A s b).2.w_post) =
      F.apply_gradients s.opt s.weights (batchStep F A s b).2.grads ∧
    (batchStep F A s b).1.weights = (batchStep F A s b).2.w_post ∧
    (batchStep F A s b).1.opt = (batchStep F A s b).2.opt_post ∧
    (batchStep F A s b).2.metric_pre = s.metric ∧
    (batchStep F A s b).2.events.take 4 =
      [BEvent.forward_pass, BEvent.loss_call, BEvent.grad_comp, BEvent.opt_step] := by
  simp only [batchStep]
  split
  · split
    · and_intros <;> rfl
    · split
      · and_intros <;> rfl
      · and_intros <;> rfl
  · and_intros <;> rfl

/-- Trace specification of the inner loop, parametrized by an invariant `P`
on the threaded state: the traced batches are exactly the input batches, in
order, and every trace entry is the `batchStep` of some `P`-state. -/
theorem runBatches_spec (F : Framework T P L G W O MS K)
    (A : TrainerArgs T K MS W O) (P : TrainState W O MS → Prop)
    (hP : ∀ s b, P s → P (batchStep F A s b).1) :
    ∀ (bs : List (List (T × Option T))) (s : TrainState W O MS), P s →
      (runBatches F A s bs).2.map (fun bt => bt.batch) = bs ∧
      P (runBatches F A s bs).1 ∧
      ∀ bt ∈ (runBatches F A s bs).2, ∃ s0 : TrainState W O MS,
        P s0 ∧ bt = (batchStep F A s0 bt.batch).2 := by
  intro bs
  induction bs with
  | nil =>
    intro s hs
    exact ⟨rfl, hs, by intro bt h; simp [runBatches] at h⟩
  | cons b bs ih =>
    intro s hs
    obtain ⟨h1, h2, h3⟩ := ih (batchStep F A s b).1 (hP s b hs)
    simp only [runBatches]
    refine ⟨?_, h2, ?_⟩
    · simp only [List.map_cons, h1, batchStep_batch]
    · intro bt hbt
      rcases List.mem_cons.mp hbt with hbt | hbt
      · refine ⟨s, hs, ?_⟩
        subst hbt
        rw [batchStep_batch]
      · exact h3 bt hbt

/-- Trace specification of the epoch loop: one epoch trace per epoch index,
each recording exactly the mini-batches of that epoch's shuffled dataset. -/
theorem runEpochs_spec (F : Framework T P L G W O MS K)
    (A : TrainerArgs T K MS W O)
    (shuffle : Nat → List (T × Option T) → List (T × Option T))
    (data : List (T × Option T)) (P : TrainState W O MS → Prop)
    (hP : ∀ s b, P s → P (batchStep F A s b).1) :
    ∀ (es : List Nat) (s : TrainState W O MS), P s →
      (runEpochs F A shuffle data s es).2.length = es.length ∧
      P (runEpochs F A shuffle data s es).1 ∧
      ∀ et ∈ (runEpochs F A shuffle data s es).2, ∃ e ∈ es,
        et.pbar_target = (if A.verbose then some (n_minibatch A) else none) ∧
        et.steps.map (fun bt => bt.batch) = batched A.batch_size (shuffle e data) ∧
        ∀ bt ∈ et.steps, ∃ s0 : TrainState W O MS,
          P s0 ∧ bt = (batchStep F A s0 bt.batch).2 := by
  intro es
  induction es with
  | nil =>
    intro s hs
    exact ⟨rfl, hs, by intro et h; simp [runEpochs] at h⟩
  | cons e es ih =>
    intro s hs
    obtain ⟨hb1, hb2, hb3⟩ :=
      runBatches_spec F A P hP (batched A.batch_size (shuffle e data)) s hs
    obtain ⟨h1, h2, h3⟩ :=
      ih (runBatches F A s (batched A.batch_size (shuffle e data))).1 hb2
    simp only [runEpochs, runEpoch]
    refine ⟨by simp [h1], h2, ?_⟩
    intro et het
    rcases List.mem_cons.mp het with het | het
    · exact ⟨e, List.mem_cons_self e es, by rw [het], by rw [het]; exact hb1,
        by rw [het]; exact hb3⟩
    · obtain ⟨e2, he2, hrest⟩ := h3 et het
      exact ⟨e2, List.mem_cons_of_mem e he2, hrest⟩

/-- Trace specification of `trainer`: `epochs` epoch traces; the `e`-th one
records the mini-batches of the `e`-th shuffle of the dataset; and each
batch trace is a `batchStep` of some state satisfying an invariant `P`
preserved by `batchStep` and true initially. -/
theorem trainer_spec (F : Framework T P L G W O MS K)
    (A : TrainerArgs T K MS W O)
    (shuffle : Nat → List (T × Option T) → List (T × Option T))
    (P : TrainState W O MS → Prop)
    (hP : ∀ s b, P s → P (batchStep F A s b).1) (hP0 : P (initState A)) :
    (trainer F shuffle A).2.length = A.epochs ∧
    P (trainer F shuffle A).1 ∧
    ∀ et ∈ (trainer F shuffle A).2, ∃ e < A.epochs,
      et.pbar_target = (if A.verbose then some (n_minibatch A) else none) ∧
      et.steps.map (fun bt => bt.batch) =
        batched A.batch_size (shuffle e (train_data A.X_train A.y_train)) ∧
      ∀ bt ∈ et.steps, ∃ s0 : TrainState W O MS,
        P s0 ∧ bt = (batchStep F A s0 bt.batch).2 := by
  obtain ⟨h1, h2, h3⟩ :=
    runEpochs_spec F A shuffle (train_data A.X_train A.y_train) P hP
      (List.range A.epochs) (initState A) hP0
  refine ⟨by simpa using h1, h2, ?_⟩
  intro et het
  obtain ⟨e, he, hrest⟩ := h3 et het
  exact ⟨e, List.mem_range.mp he, hrest⟩

theorem length_train_data {X : List T} {y : Option (List T)}
    (hy : ∀ l, y = some l → l.length = X.length) :
    (train_data X y).length = X.length := by
  cases y with
  | none => simp [train_data]
  | some l =>
    have := hy l rfl
    simp [train_data, List.length_zip, this]

theorem map_fst_train_data {X : List T} {y : Option (List T)}
    (hy : ∀ l, y = some l → l.length = X.length) :
    (train_data X y).map Prod.fst = X := by
  cases y with
  | none =>
    simp only [train_data, List.map_map]
    have : (Prod.fst ∘ fun x : T => (x, (none : Option T))) = id := rfl
    rw [this, List.map_id]
  | some l =>
    have hl := hy l rfl
    simp only [train_data, List.map_map]
    have : (Prod.fst ∘ fun p : T × T => (p.1, some p.2)) = Prod.fst := rfl
    rw [this, List.map_fst_zip _ _ (le_of_eq hl.symm)]

theorem batchStep_metric_call (F : Framework T P L G W O MS K)
    (A : TrainerArgs T K MS W O) (s : TrainState W O MS)
    (b : List (T × Option T)) :
    (batchStep F A s b).2.metric_call = none ∨
    (batchStep F A s b).2.metric_call =
      some ((batchStep F A s b).2.ground_truth, (batchStep F A s b).2.preds) := by
  simp only [batchStep]
  split
  · split
    · exact Or.inl rfl
    · split
      · exact Or.inr rfl
      · exact Or.inl rfl
  · exact Or.inl rfl

/-- In a batch all of whose elements are feature/label pairs drawn from a
pair list `S`, the feature projection and the label projection line up
pointwise: position `i` of the two projections is a pair of `S`. -/
theorem paired_batch {S : List (T × T)} :
    ∀ (batch : List (T × Option T)),
      (∀ el ∈ batch, ∃ p ∈ S, el = (p.1, some p.2)) →
      (batch.filterMap Prod.snd).length = (batch.map Prod.fst).length ∧
      ∀ (i : Nat) (h1 : i < (batch.map Prod.fst).length)
        (h2 : i < (batch.filterMap Prod.snd).length),
        ((batch.map Prod.fst)[i], (batch.filterMap Prod.snd)[i]) ∈ S := by
  intro batch
  induction batch with
  | nil =>
    intro h
    exact ⟨rfl, by intro i h1 h2; simp at h1⟩
  | cons el rest ih =>
    intro h
    obtain ⟨p, hp, hel⟩ := h el (List.mem_cons_self _ _)
    obtain ⟨hlen, hmem⟩ := ih (fun x hx => h x (List.mem_cons_of_mem _ hx))
    subst hel
    constructor
    · simp only [List.filterMap_cons, List.map_cons, List.length_cons]
      simpa using hlen
    · intro i h1 h2
      cases i with
      | zero => simpa using hp
      | succ j =>
        simp only [List.map_cons, List.filterMap_cons, List.length_cons] at h1 h2 ⊢
        simp only [List.getElem_cons_succ]
        exact hmem j (by simpa using h1) (by simpa using h2)

theorem mem_train_data_some {X y : List T} {el : T × Option T}
    (h : el ∈ train_data X (some y)) : ∃ p ∈ X.zip y, el = (p.1, some p.2) := by
  simp only [train_data, List.mem_map] at h
  obtain ⟨p, hp, he⟩ := h
  exact ⟨p, hp, he.symm⟩

/-- C1: for every training set of `N` examples and every batch size `B > 0`,
each epoch partitions the (optionally label-paired) data into shuffled
mini-batches such that exactly `ceil(N/B)` batches are processed per epoch
and every example is covered at least once: the flattened processed batches
are a permutation of the training set (the shuffle drops no data). -/
theorem C1_epoch_partition (F : Framework T P L G W O MS K)
    (shuffle : Nat → List (T × Option T) → List (T × Option T))
    (A : TrainerArgs T K MS W O)
    (hB : 0 < A.batch_size)
    (hy : ∀ l, A.y_train = some l → l.length = A.X_train.length)
    (hshuffle : ∀ e, (shuffle e (train_data A.X_train A.y_train)).Perm
      (train_data A.X_train A.y_train)) :
    (trainer F shuffle A).2.length = A.epochs ∧
    ∀ et ∈ (trainer F shuffle A).2,
      et.steps.length = (A.X_train.length + A.batch_size - 1) / A.batch_size ∧
      ((et.steps.map fun bt => bt.batch).flatten.map Prod.fst).Perm A.X_train ∧
      ∀ x ∈ A.X_train, ∃ bt ∈ et.steps, x ∈ bt.X_batch := by
  obtain ⟨h1, -, h3⟩ :=
    trainer_spec F A shuffle (fun _ => True) (fun _ _ _ => trivial) trivial
  refine ⟨h1, ?_⟩
  intro et het
  obtain ⟨e, he, hp, hmap, hbt⟩ := h3 et het
  have hlen_data : (train_data A.X_train A.y_train).length = A.X_train.length :=
    length_train_data hy
  have hsl : (shuffle e (train_data A.X_train A.y_train)).length = A.X_train.length := by
    rw [(hshuffle e).length_eq, hlen_data]
  have hperm_fst : ((shuffle e (train_data A.X_train A.y_train)).map Prod.fst).Perm
      A.X_train := by
    have hperm := (hshuffle e).map Prod.fst
    rwa [map_fst_train_data hy] at hperm
  refine ⟨?_, ?_, ?_⟩
  · have hmap' := congrArg List.length hmap
    simp only [List.length_map] at hmap'
    rw [hmap', batched_length _ hB, hsl]
  · rw [hmap, batched_flatten _ hB]
    exact hperm_fst
  · intro x hx
    have hx2 : x ∈ (shuffle e (train_data A.X_train A.y_train)).map Prod.fst :=
      hperm_fst.mem_iff.mpr hx
    obtain ⟨el, hel, hel2⟩ := List.mem_map.mp hx2
    have hel3 : el ∈ (batched A.batch_size
        (shuffle e (train_data A.X_train A.y_train))).flatten := by
      rw [batched_flatten _ hB]; exact hel
    obtain ⟨b, hbmem, helb⟩ := List.mem_flatten.mp hel3
    rw [← hmap] at hbmem
    obtain ⟨bt, hbtmem, hbteq⟩ := List.mem_map.mp hbmem
    refine ⟨bt, hbtmem, ?_⟩
    obtain ⟨s0, -, hbt0⟩ := hbt bt hbtmem
    have hXb : bt.X_batch = bt.batch.map Prod.fst := by
      conv_lhs => rw [hbt0]
      exact (batchStep_core F A s0 bt.batch).1
    rw [hXb, hbteq]
    exact List.mem_map.mpr ⟨el, helb, hel2⟩

/-- Witness for C1 at a concrete run: five examples, batch size 2, two
epochs, reversing shuffle. -/
theorem C1_epoch_partition_witness :
    0 < argsC1.batch_size ∧
    ((trainer Fw0 shuffle0 argsC1).2.length = argsC1.epochs ∧
     ∀ et ∈ (trainer Fw0 shuffle0 argsC1).2,
       et.steps.length =
         (argsC1.X_train.length + argsC1.batch_size - 1) / argsC1.batch_size ∧
       ((et.steps.map fun bt => bt.batch).flatten.map Prod.fst).Perm argsC1.X_train ∧
       ∀ x ∈ argsC1.X_train, ∃ bt ∈ et.steps, x ∈ bt.X_batch) :=
  ⟨by decide,
   C1_epoch_partition Fw0 shuffle0 argsC1 (by decide) (fun l h => nomatch h)
     (fun e => List.reverse_perm _)⟩

/-- C2: for every batch of every epoch, the ground truth passed to the loss
function (and, when the metric is updated, to the metric) is the input
batch itself when no label array is given, and the label batch aligned
positionally with that input batch when labels are given: position `i` of
(input batch, ground truth) is one of the original (feature, label) pairs. -/
theorem C2_ground_truth (F : Framework T P L G W O MS K)
    (shuffle : Nat → List (T × Option T) → List (T × Option T))
    (A : TrainerArgs T K MS W O)
    (hB : 0 < A.batch_size)
    (hshuffle : ∀ e, (shuffle e (train_data A.X_train A.y_train)).Perm
      (train_data A.X_train A.y_train)) :
    ∀ et ∈ (trainer F shuffle A).2, ∀ bt ∈ et.steps,
      bt.loss_call_gt = bt.ground_truth ∧
      (bt.metric_call = none ∨ bt.metric_call = some (bt.ground_truth, bt.preds)) ∧
      (A.y_train = none → bt.ground_truth = bt.X_batch) ∧
      (∀ y, A.y_train = some y →
        bt.ground_truth.length = bt.X_batch.length ∧
        ∀ (i : Nat) (h1 : i < bt.X_batch.length) (h2 : i < bt.ground_truth.length),
          (bt.X_batch[i], bt.ground_truth[i]) ∈ A.X_train.zip y) := by
  obtain ⟨-, -, h3⟩ :=
    trainer_spec F A shuffle (fun _ => True) (fun _ _ _ => trivial) trivial
  intro et het bt hbt
  obtain ⟨e, he, hp, hmap, hstep⟩ := h3 et het
  obtain ⟨s0, -, hbt0⟩ := hstep bt hbt
  have hXb : bt.X_batch = bt.batch.map Prod.fst := by
    conv_lhs => rw [hbt0]
    exact (batchStep_core F A s0 bt.batch).1
  have hgt : bt.ground_truth = (match A.y_train with
      | none => bt.batch.map Prod.fst
      | some _ => bt.batch.filterMap Prod.snd) := by
    conv_lhs => rw [hbt0]
    exact (batchStep_core F A s0 bt.batch).2.1
  have hlc : bt.loss_call_gt = bt.ground_truth := by
    conv_lhs => rw [hbt0]
    conv_rhs => rw [hbt0]
    exact (batchStep_core F A s0 bt.batch).2.2.2.1
  have hmc : bt.metric_call = none ∨
      bt.metric_call = some (bt.ground_truth, bt.preds) := by
    rw [hbt0]
    exact batchStep_metric_call F A s0 bt.batch
  refine ⟨hlc, hmc, ?_, ?_⟩
  · intro hnone
    rw [hgt, hXb, hnone]
  · intro y hy2
    have hgt2 : bt.ground_truth = bt.batch.filterMap Prod.snd := by
      rw [hgt, hy2]
    have hmemb : ∀ el ∈ bt.batch, ∃ p ∈ A.X_train.zip y, el = (p.1, some p.2) := by
      intro el hel
      have hb : bt.batch ∈ batched A.batch_size
          (shuffle e (train_data A.X_train A.y_train)) := by
        rw [← hmap]
        exact List.mem_map_of_mem _ hbt
      have hel2 : el ∈ shuffle e (train_data A.X_train A.y_train) :=
        mem_of_mem_batched hB hb hel
      have hel3 : el ∈ train_data A.X_train A.y_train := (hshuffle e).subset hel2
      rw [hy2] at hel3
      exact mem_train_data_some hel3
    obtain ⟨hlen, hpt⟩ := paired_batch bt.batch hmemb
    constructor
    · rw [hgt2, hXb]
      exact hlen
    · intro i h1 h2
      revert h1 h2
      rw [hXb, hgt2]
      intro h1 h2
      exact hpt i h1 h2

/-- Witness for C2 at a concrete supervised run: three labelled examples,
batch size 2, reversing shuffle. -/
theorem C2_ground_truth_witness :
    0 < argsC2.batch_size ∧
    (∀ et ∈ (trainer Fw0 shuffle0 argsC2).2, ∀ bt ∈ et.steps,
      bt.loss_call_gt = bt.ground_truth ∧
      (bt.metric_call = none ∨ bt.metric_call = some (bt.ground_truth, bt.preds)) ∧
      (argsC2.y_train = none → bt.ground_truth = bt.X_batch) ∧
      (∀ y, argsC2.y_train = some y →
        bt.ground_truth.length = bt.X_batch.length ∧
        ∀ (i : Nat) (h1 : i < bt.X_batch.length) (h2 : i < bt.ground_truth.length),
          (bt.X_batch[i], bt.ground_truth[i]) ∈ argsC2.X_train.zip y)) :=
  ⟨by decide,
   C2_ground_truth Fw0 shuffle0 argsC2 (by decide) (fun e => List.reverse_perm _)⟩

/-- C3: for every batch, the loss is `loss_fn(ground_truth, prediction)`
for a single-tensor prediction, and `loss_fn(ground_truth, *outputs)` with
the outputs as separate positional arguments in model order for a sequence
prediction; the supplied keyword arguments are forwarded to every call. -/
theorem C3_loss_call (F : Framework T P L G W O MS K)
    (shuffle : Nat → List (T × Option T) → List (T × Option T))
    (A : TrainerArgs T K MS W O) :
    ∀ et ∈ (trainer F shuffle A).2, ∀ bt ∈ et.steps,
      bt.fn_loss = F.loss_fn bt.loss_call_gt bt.loss_call_outs bt.loss_call_kwargs ∧
      bt.loss_call_gt = bt.ground_truth ∧
      bt.loss_call_kwargs = A.loss_fn_kwargs ∧
      (∀ p, bt.preds = ModelOutput.tensor p → bt.loss_call_outs = [p]) ∧
      (∀ ps, bt.preds = ModelOutput.seq ps → bt.loss_call_outs = ps) := by
  obtain ⟨-, -, h3⟩ :=
    trainer_spec F A shuffle (fun _ => True) (fun _ _ _ => trivial) trivial
  intro et het bt hbt
  obtain ⟨e, he, hp, hmap, hstep⟩ := h3 et het
  obtain ⟨s0, -, hbt0⟩ := hstep bt hbt
  obtain ⟨hXb, hgt, hpreds, hlcgt, hlco, hlck, hfn, hrest⟩ :=
    batchStep_core F A s0 bt.batch
  rw [hbt0]
  refine ⟨?_, hlcgt, hlck, ?_, ?_⟩
  · rw [hlck]
    exact hfn
  · intro p hpred
    rw [hlco, hpred]
  · intro ps hpred
    rw [hlco, hpred]

/-- Witness for C3 at a concrete run with a two-output model and keyword
arguments. -/
theorem C3_loss_call_witness :
    argsC3.loss_fn_kwargs = some 7 ∧
    ∀ et ∈ (trainer Fw2 shuffle0 argsC3).2, ∀ bt ∈ et.steps,
      bt.fn_loss = Fw2.loss_fn bt.loss_call_gt bt.loss_call_outs bt.loss_call_kwargs ∧
      bt.loss_call_gt = bt.ground_truth ∧
      bt.loss_call_kwargs = argsC3.loss_fn_kwargs ∧
      (∀ p, bt.preds = ModelOutput.tensor p → bt.loss_call_outs = [p]) ∧
      (∀ ps, bt.preds = ModelOutput.seq ps → bt.loss_call_outs = ps) :=
  ⟨rfl, C3_loss_call Fw2 shuffle0 argsC3⟩

/-- C4: for every batch, if the model exposes a non-empty auxiliary loss
list, the total loss used for gradient computation is the assembled
loss-function value plus their (Python) sum; with no auxiliary losses the
total equals the loss-function value unchanged; the gradients are computed
from that total on the pre-step weights. -/
theorem C4_aux_losses (F : Framework T P L G W O MS K)
    (shuffle : Nat → List (T × Option T) → List (T × Option T))
    (A : TrainerArgs T K MS W O) :
    ∀ et ∈ (trainer F shuffle A).2, ∀ bt ∈ et.steps,
      (bt.aux_losses = [] → bt.total_loss = bt.fn_loss) ∧
      (bt.aux_losses ≠ [] →
        bt.total_loss =
          F.loss_add bt.fn_loss (pySum F.loss_add F.loss_zero bt.aux_losses)) ∧
      bt.grads = F.tape_gradient bt.w_pre bt.total_loss := by
  obtain ⟨-, -, h3⟩ :=
    trainer_spec F A shuffle (fun _ => True) (fun _ _ _ => trivial) trivial
  intro et het bt hbt
  obtain ⟨e, he, hp, hmap, hstep⟩ := h3 et het
  obtain ⟨s0, -, hbt0⟩ := hstep bt hbt
  obtain ⟨hXb, hgt, hpreds, hlcgt, hlco, hlck, hfn, haux, htot, hgr, hwpre, hrest⟩ :=
    batchStep_core F A s0 bt.batch
  rw [hbt0]
  refine ⟨?_, ?_, ?_⟩
  · intro h
    rw [htot, h]
    simp
  · intro h
    rw [htot, if_neg]
    simp only [List.isEmpty_iff]
    exact h
  · rw [hwpre]
    exact hgr

/-- Witness for C4 at a concrete run whose model exposes two auxiliary
losses. -/
theorem C4_aux_losses_witness :
    argsC3.epochs = 1 ∧
    ∀ et ∈ (trainer Fw2 shuffle0 argsC3).2, ∀ bt ∈ et.steps,
      (bt.aux_losses = [] → bt.total_loss = bt.fn_loss) ∧
      (bt.aux_losses ≠ [] →
        bt.total_loss =
          Fw2.loss_add bt.fn_loss (pySum Fw2.loss_add Fw2.loss_zero bt.aux_losses)) ∧
      bt.grads = Fw2.tape_gradient bt.w_pre bt.total_loss :=
  ⟨rfl, C4_aux_losses Fw2 shuffle0 argsC3⟩

theorem padDisplay_ok_self_iff (B : Nat) (a : NpArr) :
    padDisplay B a = Except.ok a ↔ ¬ padAttempted B a := by
  constructor
  · intro h
    by_contra hatt
    have hatt' : a.shape ≠ [B] ∧ a.shape ≠ [] := hatt
    unfold padDisplay at h
    rw [if_pos hatt'] at h
    by_cases h1 : B < a.shape.headD 0
    · rw [if_pos h1] at h
      exact absurd h (by simp)
    · rw [if_neg h1] at h
      by_cases h2 : a.shape.length ≠ 1
      · rw [if_pos h2] at h
        exact absurd h (by simp)
      · rw [if_neg h2] at h
        simp only [Except.ok.injEq] at h
        obtain ⟨n, hn⟩ := List.length_eq_one.mp (not_ne_iff.mp h2)
        have hd : a.data.length + (B - a.shape.headD 0) = a.data.length := by
          have := congrArg (fun x : NpArr => x.data.length) h
          simpa using this
        have hBn : a.shape.headD 0 = B := by omega
        apply hatt.1
        rw [hn] at hBn ⊢
        simp only [List.headD_cons] at hBn
        rw [hBn]
  · intro h
    have h' : ¬(a.shape ≠ [B] ∧ a.shape ≠ []) := h
    unfold padDisplay
    rw [if_neg h']

theorem padDisplay_not_attempted (B : Nat) (a : NpArr)
    (h : ¬ padAttempted B a) : padDisplay B a = Except.ok a :=
  (padDisplay_ok_self_iff B a).mpr h

theorem padDisplay_short (B : Nat) (l : List Rat) (h : l.length < B) :
    padDisplay B ⟨[l.length], l⟩ =
      Except.ok ⟨[B], l ++ List.replicate (B - l.length) (npMean l)⟩ := by
  have hB : l.length + (B - l.length) = B := by omega
  unfold padDisplay
  rw [if_pos, if_neg, if_neg]
  · simp only [List.headD_cons]
    rw [hB]
  · simp only [List.length_cons, List.length_nil]
    omega
  · simp only [List.headD_cons]
    omega
  · constructor
    · simp only [ne_eq, List.cons.injEq, and_true]
      intro hc
      omega
    · simp

/-- The verbose block of one batch iteration, by cases on the display
computation and the presence of a logged metric. -/
theorem batchStep_verbose (F : Framework T P L G W O MS K)
    (A : TrainerArgs T K MS W O) (s : TrainState W O MS)
    (b : List (T × Option T)) (hv : A.verbose = true) :
    (batchStep F A s b).2.loss_display =
      some (padDisplay A.batch_size (F.loss_numpy (batchStep F A s b).2.total_loss)) ∧
    (∀ v, padDisplay A.batch_size (F.loss_numpy (batchStep F A s b).2.total_loss) =
        Except.ok v →
      (batchStep F A s b).2.pbar_add = 1 ∧
      (A.log_metric = none →
        (batchStep F A s b).2.pbar_values = some [("loss", v)] ∧
        (batchStep F A s b).2.metric_call = none ∧
        (batchStep F A s b).2.metric_post = s.metric) ∧
      (∀ nmm m, A.log_metric = some nmm → s.metric = some m →
        (batchStep F A s b).2.metric_call =
          some ((batchStep F A s b).2.ground_truth, (batchStep F A s b).2.preds) ∧
        (batchStep F A s b).2.metric_post =
          some (F.metric_update m (batchStep F A s b).2.ground_truth
            (batchStep F A s b).2.preds) ∧
        (batchStep F A s b).1.metric =
          some (F.metric_update m (batchStep F A s b).2.ground_truth
            (batchStep F A s b).2.preds) ∧
        (batchStep F A s b).2.pbar_values =
          some [("loss", v),
                (nmm.1, F.metric_result (F.metric_update m
                  (batchStep F A s b).2.ground_truth (batchStep F A s b).2.preds))] ∧
        (batchStep F A s b).2.events =
          [BEvent.forward_pass, BEvent.loss_call, BEvent.grad_comp, BEvent.opt_step,
           BEvent.metric_upd, BEvent.pbar_step])) ∧
    ((∃ err, padDisplay A.batch_size (F.loss_numpy (batchStep F A s b).2.total_loss) =
        Except.error err) →
      (batchStep F A s b).2.pbar_add = 0 ∧
      (batchStep F A s b).2.metric_post = s.metric ∧
      (batchStep F A s b).2.pbar_values = none) := by
  simp only [batchStep]
  split
  · split
    · rename_i err heq
      refine ⟨by simp [heq], ?_, ?_⟩
      · intro v hvv
        rw [heq] at hvv
        exact absurd hvv (by simp)
      · intro hex
        exact ⟨rfl, rfl, rfl⟩
    · rename_i v0 heq
      split
      · rename_i nmm m hlm hm
        refine ⟨by simp [heq], ?_, ?_⟩
        · intro v hvv
          rw [heq] at hvv
          simp only [Except.ok.injEq] at hvv
          subst hvv
          refine ⟨rfl, ?_, ?_⟩
          · intro hnone
            rw [hnone] at hlm
            exact absurd hlm (by simp)
          · intro nmm2 m2 hlm2 hm2
            rw [hlm] at hlm2
            rw [hm] at hm2
            simp only [Option.some.injEq] at hlm2 hm2
            subst hlm2
            subst hm2
            exact ⟨rfl, rfl, rfl, rfl, rfl⟩
        · intro hex
          obtain ⟨err, herr⟩ := hex
          rw [heq] at herr
          exact absurd herr (by simp)
      · rename_i hcatch
        refine ⟨by simp [heq], ?_, ?_⟩
        · intro v hvv
          rw [heq] at hvv
          simp only [Except.ok.injEq] at hvv
          subst hvv
          refine ⟨rfl, ?_, ?_⟩
          · intro hnone
            exact ⟨rfl, rfl, rfl⟩
          · intro nmm2 m2 hlm2 hm2
            exact (hcatch nmm2 m2 hlm2 hm2).elim
        · intro hex
          obtain ⟨err, herr⟩ := hex
          rw [heq] at herr
          exact absurd herr (by simp)
  · rename_i hnv
    exact absurd hv hnv

/-- C5: for every verbose batch whose per-example loss vector is shorter
than the batch size, the displayed loss vector is the real vector padded to
length `batch_size` by repeating the batch's mean loss; the gradients and
the optimizer step are computed from the unpadded loss tensor only, so the
padding never reaches the parameter update. -/
theorem C5_pad_display_only (F : Framework T P L G W O MS K)
    (shuffle : Nat → List (T × Option T) → List (T × Option T))
    (A : TrainerArgs T K MS W O) (hv : A.verbose = true) :
    ∀ et ∈ (trainer F shuffle A).2, ∀ bt ∈ et.steps,
      ∀ l : List Rat, F.loss_numpy bt.total_loss = ⟨[l.length], l⟩ →
        l.length < A.batch_size →
        bt.loss_display = some (Except.ok
          ⟨[A.batch_size],
           l ++ List.replicate (A.batch_size - l.length) (npMean l)⟩) ∧
        bt.grads = F.tape_gradient bt.w_pre bt.total_loss ∧
        (bt.opt_post, bt.w_post) =
          F.apply_gradients bt.opt_pre bt.w_pre bt.grads := by
  obtain ⟨-, -, h3⟩ :=
    trainer_spec F A shuffle (fun _ => True) (fun _ _ _ => trivial) trivial
  intro et het bt hbt
  obtain ⟨e, he, hp, hmap, hstep⟩ := h3 et het
  obtain ⟨s0, -, hbt0⟩ := hstep bt hbt
  intro l hnum hlen
  obtain ⟨hld, hok, herr⟩ := batchStep_verbose F A s0 bt.batch hv
  obtain ⟨hXb, hgt, hpreds, hlcgt, hlco, hlck, hfn, haux, htot, hgr, hwpre, hopre,
    happ, hsw, hso, hmpre, hev⟩ := batchStep_core F A s0 bt.batch
  rw [hbt0] at hnum ⊢
  refine ⟨?_, ?_, ?_⟩
  · rw [hld, hnum]
    rw [padDisplay_short _ l hlen]
  · rw [hwpre]
    exact hgr
  · rw [hopre, hwpre]
    exact happ

/-- Witness for C5 at a concrete run whose loss display is a length-1
vector while the batch size is 2. -/
theorem C5_pad_display_only_witness :
    argsC1.verbose = true ∧
    (∀ et ∈ (trainer Fw1 shuffle0 argsC1).2, ∀ bt ∈ et.steps,
      ∀ l : List Rat, Fw1.loss_numpy bt.total_loss = ⟨[l.length], l⟩ →
        l.length < argsC1.batch_size →
        bt.loss_display = some (Except.ok
          ⟨[argsC1.batch_size],
           l ++ List.replicate (argsC1.batch_size - l.length) (npMean l)⟩) ∧
        bt.grads = Fw1.tape_gradient bt.w_pre bt.total_loss ∧
        (bt.opt_post, bt.w_post) =
          Fw1.apply_gradients bt.opt_pre bt.w_pre bt.grads) :=
  ⟨by decide, C5_pad_display_only Fw1 shuffle0 argsC1 (by decide)⟩

/-- C10: for every verbose batch, the displayed loss value is exactly
`padDisplay` of the loss's numpy value; a 0-dimensional scalar loss and a
loss vector already of length `batch_size` are displayed unchanged; and the
display leaves the value unchanged precisely when the source's padding
branch (non-empty shape different from `(batch_size,)`) is not attempted. -/
theorem C10_pad_condition (F : Framework T P L G W O MS K)
    (shuffle : Nat → List (T × Option T) → List (T × Option T))
    (A : TrainerArgs T K MS W O) (hv : A.verbose = true) :
    ∀ et ∈ (trainer F shuffle A).2, ∀ bt ∈ et.steps,
      bt.loss_display = some (padDisplay A.batch_size (F.loss_numpy bt.total_loss)) ∧
      ((F.loss_numpy bt.total_loss).shape = [] →
        bt.loss_display = some (Except.ok (F.loss_numpy bt.total_loss))) ∧
      ((F.loss_numpy bt.total_loss).shape = [A.batch_size] →
        bt.loss_display = some (Except.ok (F.loss_numpy bt.total_loss))) ∧
      (bt.loss_display = some (Except.ok (F.loss_numpy bt.total_loss)) ↔
        ¬ padAttempted A.batch_size (F.loss_numpy bt.total_loss)) := by
  obtain ⟨-, -, h3⟩ :=
    trainer_spec F A shuffle (fun _ => True) (fun _ _ _ => trivial) trivial
  intro et het bt hbt
  obtain ⟨e, he, hp, hmap, hstep⟩ := h3 et het
  obtain ⟨s0, -, hbt0⟩ := hstep bt hbt
  obtain ⟨hld, hok, herr⟩ := batchStep_verbose F A s0 bt.batch hv
  rw [hbt0]
  refine ⟨hld, ?_, ?_, ?_⟩
  · intro hsh
    rw [hld, padDisplay_not_attempted _ _ (fun hatt => hatt.2 hsh)]
  · intro hsh
    rw [hld, padDisplay_not_attempted _ _ (fun hatt => hatt.1 hsh)]
  · rw [hld, Option.some_inj]
    exact padDisplay_ok_self_iff _ _

/-- Witness for C10 at a concrete verbose run with scalar losses. -/
theorem C10_pad_condition_witness :
    argsC1.verbose = true ∧
    (∀ et ∈ (trainer Fw0 shuffle0 argsC1).2, ∀ bt ∈ et.steps,
      bt.loss_display =
        some (padDisplay argsC1.batch_size (Fw0.loss_numpy bt.total_loss)) ∧
      ((Fw0.loss_numpy bt.total_loss).shape = [] →
        bt.loss_display = some (Except.ok (Fw0.loss_numpy bt.total_loss))) ∧
      ((Fw0.loss_numpy bt.total_loss).shape = [argsC1.batch_size] →
        bt.loss_display = some (Except.ok (Fw0.loss_numpy bt.total_loss))) ∧
      (bt.loss_display = some (Except.ok (Fw0.loss_numpy bt.total_loss)) ↔
        ¬ padAttempted argsC1.batch_size (Fw0.loss_numpy bt.total_loss))) :=
  ⟨by decide, C10_pad_condition Fw0 shuffle0 argsC1 (by decide)⟩

theorem batchStep_metric_isSome (F : Framework T P L G W O MS K)
    (A : TrainerArgs T K MS W O) (s : TrainState W O MS)
    (b : List (T × Option T)) (h : s.metric.isSome) :
    ((batchStep F A s b).1).metric.isSome := by
  simp only [batchStep]
  split
  · split
    · exact h
    · split
      · simp
      · exact h
  · exact h

/-- C7: for every verbose batch with a supplied `(name, metric)` pair, the
metric is updated with `(ground_truth, preds)`, its aggregated result is
displayed alongside the loss, and the progress bar (with target
`n_minibatch`) advances by one unit. -/
theorem C7_metric_progress (F : Framework T P L G W O MS K)
    (shuffle : Nat → List (T × Option T) → List (T × Option T))
    (A : TrainerArgs T K MS W O) (hv : A.verbose = true)
    (nm : String) (m0 : MS) (hlm : A.log_metric = some (nm, m0)) :
    ∀ et ∈ (trainer F shuffle A).2,
      et.pbar_target = some (n_minibatch A) ∧
      ∀ bt ∈ et.steps, ∀ v, bt.loss_display = some (Except.ok v) →
        ∃ m, bt.metric_pre = some m ∧
          bt.metric_call = some (bt.ground_truth, bt.preds) ∧
          bt.metric_post = some (F.metric_update m bt.ground_truth bt.preds) ∧
          bt.pbar_values = some [("loss", v),
            (nm, F.metric_result (F.metric_update m bt.ground_truth bt.preds))] ∧
          bt.pbar_add = 1 := by
  obtain ⟨-, -, h3⟩ :=
    trainer_spec F A shuffle (fun s => s.metric.isSome)
      (fun s b hs => batchStep_metric_isSome F A s b hs)
      (by simp [initState, hlm])
  intro et het
  obtain ⟨e, he, hp, hmap, hstep⟩ := h3 et het
  constructor
  · simp [hp, hv]
  · intro bt hbt v hvdisp
    obtain ⟨s0, hs0, hbt0⟩ := hstep bt hbt
    obtain ⟨m, hm⟩ := Option.isSome_iff_exists.mp hs0
    obtain ⟨hld, hok, herr⟩ := batchStep_verbose F A s0 bt.batch hv
    rw [hbt0] at hvdisp ⊢
    rw [hld, Option.some_inj] at hvdisp
    obtain ⟨hpadd, hnone, hsome⟩ := hok v hvdisp
    obtain ⟨hmc, hmpost, hsmetric, hpv, hevents⟩ := hsome (nm, m0) m hlm hm
    refine ⟨m, ?_, hmc, hmpost, hpv, hpadd⟩
    have hmpre := (batchStep_core F A s0 bt.batch).2.2.2.2.2.2.2.2.2.2.2.2.2.2.2.1
    rw [hmpre, hm]

/-- Witness for C7 at a concrete verbose run with metric `("acc", 0)`. -/
theorem C7_metric_progress_witness :
    argsC1.verbose = true ∧ argsC1.log_metric = some ("acc", (0 : Rat)) ∧
    (∀ et ∈ (trainer Fw0 shuffle0 argsC1).2,
      et.pbar_target = some (n_minibatch argsC1) ∧
      ∀ bt ∈ et.steps, ∀ v, bt.loss_display = some (Except.ok v) →
        ∃ m, bt.metric_pre = some m ∧
          bt.metric_call = some (bt.ground_truth, bt.preds) ∧
          bt.metric_post = some (Fw0.metric_update m bt.ground_truth bt.preds) ∧
          bt.pbar_values = some [("loss", v),
            ("acc", Fw0.metric_result (Fw0.metric_update m bt.ground_truth bt.preds))] ∧
          bt.pbar_add = 1) :=
  ⟨rfl, rfl, C7_metric_progress Fw0 shuffle0 argsC1 rfl "acc" 0 rfl⟩

/-- The state-and-gradient outputs of one batch iteration in closed form:
everything fed to the tape and the optimizer is a function of the pre-batch
weights, optimizer slots and the batch only. -/
theorem batchStep_closed (F : Framework T P L G W O MS K)
    (A : TrainerArgs T K MS W O) (s : TrainState W O MS)
    (b : List (T × Option T)) :
    (batchStep F A s b).2.total_loss =
      (let gt : List T := match A.y_train with
        | none => b.map Prod.fst
        | some _ => b.filterMap Prod.snd
       let outs : List P := match F.model_call s.weights (b.map Prod.fst) with
        | ModelOutput.tensor p => [p]
        | ModelOutput.seq ps => ps
       let fl := F.loss_fn gt outs A.loss_fn_kwargs
       let aux := F.model_losses s.weights (b.map Prod.fst)
       if aux.isEmpty then fl
       else F.loss_add fl (pySum F.loss_add F.loss_zero aux)) ∧
    (batchStep F A s b).2.grads =
      F.tape_gradient s.weights (batchStep F A s b).2.total_loss ∧
    (batchStep F A s b).1.weights =
      (F.apply_gradients s.opt s.weights (batchStep F A s b).2.grads).2 ∧
    (batchStep F A s b).1.opt =
      (F.apply_gradients s.opt s.weights (batchStep F A s b).2.grads).1 := by
  simp only [batchStep]
  split
  · split
    · and_intros <;> rfl
    · split <;> (and_intros <;> rfl)
  · and_intros <;> rfl

/-- The weights, optimizer slots and gradients produced by a batch
iteration do not depend on the verbosity flag or the metric state. -/
theorem batchStep_core_only (F : Framework T P L G W O MS K)
    (A A2 : TrainerArgs T K MS W O) (s1 s2 : TrainState W O MS)
    (b : List (T × Option T))
    (hy : A2.y_train = A.y_train) (hk : A2.loss_fn_kwargs = A.loss_fn_kwargs)
    (hw : s1.weights = s2.weights) (ho : s1.opt = s2.opt) :
    (batchStep F A2 s1 b).2.total_loss = (batchStep F A s2 b).2.total_loss ∧
    (batchStep F A2 s1 b).2.grads = (batchStep F A s2 b).2.grads ∧
    (batchStep F A2 s1 b).1.weights = (batchStep F A s2 b).1.weights ∧
    (batchStep F A2 s1 b).1.opt = (batchStep F A s2 b).1.opt := by
  obtain ⟨t1, g1, w1, o1⟩ := batchStep_closed F A2 s1 b
  obtain ⟨t2, g2, w2, o2⟩ := batchStep_closed F A s2 b
  have ht : (batchStep F A2 s1 b).2.total_loss = (batchStep F A s2 b).2.total_loss := by
    rw [t1, t2, hy, hk, hw]
  have hg : (batchStep F A2 s1 b).2.grads = (batchStep F A s2 b).2.grads := by
    rw [g1, g2, hw, ht]
  refine ⟨ht, hg, ?_, ?_⟩
  · rw [w1, w2, hw, ho, hg]
  · rw [o1, o2, hw, ho, hg]

theorem runBatches_verbose_irrel (F : Framework T P L G W O MS K)
    (A : TrainerArgs T K MS W O) (v : Bool) :
    ∀ (bs : List (List (T × Option T))) (s1 s2 : TrainState W O MS),
      s1.weights = s2.weights → s1.opt = s2.opt →
      (runBatches F { A with verbose := v } s1 bs).1.weights =
        (runBatches F A s2 bs).1.weights ∧
      (runBatches F { A with verbose := v } s1 bs).1.opt =
        (runBatches F A s2 bs).1.opt ∧
      (runBatches F { A with verbose := v } s1 bs).2.map (fun bt => bt.grads) =
        (runBatches F A s2 bs).2.map (fun bt => bt.grads) := by
  intro bs
  induction bs with
  | nil =>
    intro s1 s2 hw ho
    exact ⟨hw, ho, rfl⟩
  | cons b bs ih =>
    intro s1 s2 hw ho
    obtain ⟨ht, hg, hww, hoo⟩ :=
      batchStep_core_only F A { A with verbose := v } s1 s2 b rfl rfl hw ho
    obtain ⟨ihw, iho, ihg⟩ :=
      ih (batchStep F { A with verbose := v } s1 b).1 (batchStep F A s2 b).1 hww hoo
    simp only [runBatches]
    exact ⟨ihw, iho, by simp only [List.map_cons, hg, ihg]⟩

theorem runEpochs_verbose_irrel (F : Framework T P L G W O MS K)
    (A : TrainerArgs T K MS W O) (v : Bool)
    (shuffle : Nat → List (T × Option T) → List (T × Option T))
    (data : List (T × Option T)) :
    ∀ (es : List Nat) (s1 s2 : TrainState W O MS),
      s1.weights = s2.weights → s1.opt = s2.opt →
      (runEpochs F { A with verbose := v } shuffle data s1 es).1.weights =
        (runEpochs F A shuffle data s2 es).1.weights ∧
      (runEpochs F { A with verbose := v } shuffle data s1 es).1.opt =
        (runEpochs F A shuffle data s2 es).1.opt ∧
      (runEpochs F { A with verbose := v } shuffle data s1 es).2.map
          (fun et => et.steps.map (fun bt => bt.grads)) =
        (runEpochs F A shuffle data s2 es).2.map
          (fun et => et.steps.map (fun bt => bt.grads)) := by
  intro es
  induction es with
  | nil =>
    intro s1 s2 hw ho
    exact ⟨hw, ho, rfl⟩
  | cons e es ih =>
    intro s1 s2 hw ho
    obtain ⟨hbw, hbo, hbg⟩ :=
      runBatches_verbose_irrel F A v (batched A.batch_size (shuffle e data)) s1 s2 hw ho
    obtain ⟨ihw, iho, ihg⟩ :=
      ih (runBatches F { A with verbose := v } s1
            (batched A.batch_size (shuffle e data))).1
         (runBatches F A s2 (batched A.batch_size (shuffle e data))).1 hbw hbo
    simp only [runEpochs, runEpoch]
    exact ⟨ihw, iho, by simp only [List.map_cons, hbg, ihg]⟩

/-- C8: the verbosity flag affects only the display and metric side of the
loop: the sequence of gradients and the final weights and optimizer slots
are identical with `verbose` true or false, and in the verbose run every
metric/progress event of a batch comes strictly after its four compute
events (forward pass, loss call, gradient computation, optimizer step). -/
theorem C8_verbose_invariant (F : Framework T P L G W O MS K)
    (shuffle : Nat → List (T × Option T) → List (T × Option T))
    (A : TrainerArgs T K MS W O) :
    (trainer F shuffle { A with verbose := true }).1.weights =
      (trainer F shuffle { A with verbose := false }).1.weights ∧
    (trainer F shuffle { A with verbose := true }).1.opt =
      (trainer F shuffle { A with verbose := false }).1.opt ∧
    (trainer F shuffle { A with verbose := true }).2.map
        (fun et => et.steps.map (fun bt => bt.grads)) =
      (trainer F shuffle { A with verbose := false }).2.map
        (fun et => et.steps.map (fun bt => bt.grads)) ∧
    (∀ et ∈ (trainer F shuffle { A with verbose := true }).2, ∀ bt ∈ et.steps,
      bt.events.take 4 =
        [BEvent.forward_pass, BEvent.loss_call, BEvent.grad_comp, BEvent.opt_step] ∧
      BEvent.metric_upd ∉ bt.events.take 4 ∧
      BEvent.pbar_step ∉ bt.events.take 4) := by
  obtain ⟨hw, ho, hg⟩ :=
    runEpochs_verbose_irrel F { A with verbose := false } true shuffle
      (train_data A.X_train A.y_train) (List.range A.epochs)
      (initState { A with verbose := true }) (initState { A with verbose := false })
      rfl rfl
  refine ⟨hw, ho, hg, ?_⟩
  obtain ⟨-, -, h3⟩ :=
    trainer_spec F { A with verbose := true } shuffle (fun _ => True)
      (fun _ _ _ => trivial) trivial
  intro et het bt hbt
  obtain ⟨e, he, hp, hmap, hstep⟩ := h3 et het
  obtain ⟨s0, -, hbt0⟩ := hstep bt hbt
  have hev : bt.events.take 4 =
      [BEvent.forward_pass, BEvent.loss_call, BEvent.grad_comp, BEvent.opt_step] := by
    conv_lhs => rw [hbt0]
    exact (batchStep_core F { A with verbose := true } s0
      bt.batch).2.2.2.2.2.2.2.2.2.2.2.2.2.2.2.2
  refine ⟨hev, ?_, ?_⟩
  · rw [hev]
    decide
  · rw [hev]
    decide

/-- Witness for C8 at a concrete run. -/
theorem C8_verbose_invariant_witness :
    (trainer Fw0 shuffle0 { argsC1 with verbose := true }).1.weights =
      (trainer Fw0 shuffle0 { argsC1 with verbose := false }).1.weights ∧
    (trainer Fw0 shuffle0 { argsC1 with verbose := true }).1.opt =
      (trainer Fw0 shuffle0 { argsC1 with verbose := false }).1.opt ∧
    (trainer Fw0 shuffle0 { argsC1 with verbose := true }).2.map
        (fun et => et.steps.map (fun bt => bt.grads)) =
      (trainer Fw0 shuffle0 { argsC1 with verbose := false }).2.map
        (fun et => et.steps.map (fun bt => bt.grads)) ∧
    (∀ et ∈ (trainer Fw0 shuffle0 { argsC1 with verbose := true }).2, ∀ bt ∈ et.steps,
      bt.events.take 4 =
        [BEvent.forward_pass, BEvent.loss_call, BEvent.grad_comp, BEvent.opt_step] ∧
      BEvent.metric_upd ∉ bt.events.take 4 ∧
      BEvent.pbar_step ∉ bt.events.take 4) :=
  C8_verbose_invariant Fw0 shuffle0 argsC1

/-- On inputs where the pre-loop data preparation succeeds, the full-call
fallible embedding agrees with its epoch loop. -/
theorem trainerPrepE_eq_trainerE (FE : FrameworkE T P L G W O MS K)
    (shuffle : Nat → List (T × Option T) → List (T × Option T))
    (A : TrainerArgs T K MS W O)
    (hy : ∀ l, A.y_train = some l → l.length = A.X_train.length)
    (hbuf : A.buffer_size ≠ 0) (hB : A.batch_size ≠ 0) :
    trainerPrepE FE shuffle A = trainerE FE shuffle A := by
  have hslices : from_tensor_slicesE A.X_train A.y_train =
      Except.ok (train_data A.X_train A.y_train) := by
    cases hyt : A.y_train with
    | none => rfl
    | some l =>
      have hl := hy l hyt
      simp [from_tensor_slicesE, train_data, hl]
  have hds : dataset_prepE A = Except.ok () := by
    simp [dataset_prepE, hbuf, hB]
  have hn : n_minibatchE A = Except.ok (n_minibatch A) := by
    simp [n_minibatchE, hB]
  show (from_tensor_slicesE A.X_train A.y_train >>= fun data =>
    dataset_prepE A >>= fun _ds => n_minibatchE A >>= fun _nmb =>
    runEpochsE FE A shuffle data (initState A) (List.range A.epochs)) =
    trainerE FE shuffle A
  rw [hslices]
  show (dataset_prepE A >>= fun _ds => n_minibatchE A >>= fun _nmb =>
    runEpochsE FE A shuffle (train_data A.X_train A.y_train) (initState A)
      (List.range A.epochs)) = trainerE FE shuffle A
  rw [hds]
  show (n_minibatchE A >>= fun _nmb =>
    runEpochsE FE A shuffle (train_data A.X_train A.y_train) (initState A)
      (List.range A.epochs)) = trainerE FE shuffle A
  rw [hn]
  rfl

/-- C9 counterexample: with `epochs = 0` the call does not return normally
on every input. The pre-loop data preparation of source lines 48-55 runs
before the epoch loop regardless of `epochs`, and raises for a label array
of mismatched length (`from_tensor_slices`), for `batch_size = 0`, and for
`buffer_size = 0`. -/
theorem C9_zero_epochs_counterexample :
    (argsC9bad.epochs = 0 ∧
     trainerPrepE FwOkE shuffle0 argsC9bad = Except.error
       "ValueError: X_train and y_train have incompatible first dimensions") ∧
    (argsC9zero.epochs = 0 ∧
     trainerPrepE FwOkE shuffle0 argsC9zero = Except.error
       "InvalidArgumentError: batch_size must be greater than zero") ∧
    (argsC9buf.epochs = 0 ∧
     trainerPrepE FwOkE shuffle0 argsC9buf = Except.error
       "InvalidArgumentError: buffer_size must be greater than zero") :=
  ⟨⟨rfl, rfl⟩, ⟨rfl, rfl⟩, ⟨rfl, rfl⟩⟩

/-- C9 (amended): for every model and every input on which the pre-loop
data preparation succeeds — the label array, when given, matches the
feature array in length, and the shuffle buffer size and the batch size are
nonzero — calling the trainer with `epochs = 0` performs no forward pass
and no optimizer step, leaves the model's parameters unchanged, produces no
progress output, and returns normally. -/
theorem C9_zero_epochs (F : Framework T P L G W O MS K)
    (shuffle : Nat → List (T × Option T) → List (T × Option T))
    (A : TrainerArgs T K MS W O) (h : A.epochs = 0)
    (hy : ∀ l, A.y_train = some l → l.length = A.X_train.length)
    (hbuf : A.buffer_size ≠ 0) (hB : A.batch_size ≠ 0) :
    trainer F shuffle A = (initState A, []) ∧
    (trainer F shuffle A).1.weights = A.weights0 ∧
    (trainer F shuffle A).1.opt = A.opt0 ∧
    (trainer F shuffle A).2 = [] ∧
    (∀ FE : FrameworkE T P L G W O MS K,
      trainerPrepE FE shuffle A = Except.ok (initState A)) := by
  have hr : List.range A.epochs = [] := by rw [h]; rfl
  have h1 : trainer F shuffle A = (initState A, []) := by
    show runEpochs F A shuffle (train_data A.X_train A.y_train) (initState A)
      (List.range A.epochs) = (initState A, [])
    rw [hr]
    rfl
  refine ⟨h1, by rw [h1]; rfl, by rw [h1]; rfl, by rw [h1], ?_⟩
  intro FE
  have hslices : from_tensor_slicesE A.X_train A.y_train =
      Except.ok (train_data A.X_train A.y_train) := by
    cases hyt : A.y_train with
    | none => rfl
    | some l =>
      have hl := hy l hyt
      simp [from_tensor_slicesE, train_data, hl]
  have hds : dataset_prepE A = Except.ok () := by
    simp [dataset_prepE, hbuf, hB]
  have hn : n_minibatchE A = Except.ok (n_minibatch A) := by
    simp [n_minibatchE, hB]
  show (from_tensor_slicesE A.X_train A.y_train >>= fun data =>
    dataset_prepE A >>= fun _ds => n_minibatchE A >>= fun _nmb =>
    runEpochsE FE A shuffle data (initState A) (List.range A.epochs)) =
    Except.ok (initState A)
  rw [hslices]
  show (dataset_prepE A >>= fun _ds => n_minibatchE A >>= fun _nmb =>
    runEpochsE FE A shuffle (train_data A.X_train A.y_train) (initState A)
      (List.range A.epochs)) = Except.ok (initState A)
  rw [hds]
  show (n_minibatchE A >>= fun _nmb =>
    runEpochsE FE A shuffle (train_data A.X_train A.y_train) (initState A)
      (List.range A.epochs)) = Except.ok (initState A)
  rw [hn]
  show runEpochsE FE A shuffle (train_data A.X_train A.y_train) (initState A)
    (List.range A.epochs) = Except.ok (initState A)
  rw [hr]
  rfl

/-- Witness for the amended C9 at a concrete well-formed zero-epoch run. -/
theorem C9_zero_epochs_witness :
    argsC9.epochs = 0 ∧ argsC9.buffer_size ≠ 0 ∧ argsC9.batch_size ≠ 0 ∧
    (trainer Fw0 shuffle0 argsC9 = (initState argsC9, []) ∧
     (trainer Fw0 shuffle0 argsC9).1.weights = argsC9.weights0 ∧
     (trainer Fw0 shuffle0 argsC9).1.opt = argsC9.opt0 ∧
     (trainer Fw0 shuffle0 argsC9).2 = [] ∧
     (∀ FE : FrameworkE Nat Nat Rat Rat Rat Nat Rat Nat,
       trainerPrepE FE shuffle0 argsC9 = Except.ok (initState argsC9))) :=
  ⟨rfl, by decide, by decide,
   C9_zero_epochs Fw0 shuffle0 argsC9 rfl (fun l h => nomatch h)
     (by decide) (by decide)⟩

theorem runBatchesE_append (F : FrameworkE T P L G W O MS K)
    (A : TrainerArgs T K MS W O) (bs1 bs2 : List (List (T × Option T))) :
    ∀ s : TrainState W O MS,
      runBatchesE F A s (bs1 ++ bs2) =
        runBatchesE F A s bs1 >>= fun s2 => runBatchesE F A s2 bs2 := by
  induction bs1 with
  | nil =>
    intro s
    rfl
  | cons b bs ih =>
    intro s
    simp only [List.cons_append, runBatchesE]
    cases hb : batchStepE F A s b with
    | error e => rfl
    | ok s2 => exact ih s2

theorem runEpochsE_append (F : FrameworkE T P L G W O MS K)
    (A : TrainerArgs T K MS W O)
    (shuffle : Nat → List (T × Option T) → List (T × Option T))
    (data : List (T × Option T)) (es1 es2 : List Nat) :
    ∀ s : TrainState W O MS,
      runEpochsE F A shuffle data s (es1 ++ es2) =
        runEpochsE F A shuffle data s es1 >>= fun s2 =>
          runEpochsE F A shuffle data s2 es2 := by
  induction es1 with
  | nil =>
    intro s
    rfl
  | cons e es ih =>
    intro s
    simp only [List.cons_append, runEpochsE]
    cases he : runEpochE F A (shuffle e data) s with
    | error err => rfl
    | ok s2 => exact ih s2

/-- C6: the trainer installs no handler around any framework call. If the
run reaches a batch (after `es1` complete epochs and `bs1` complete batches
of the current epoch) whose iteration raises — forward pass, loss call,
gradient computation, optimizer step, display or metric — the whole call
terminates with exactly that error: no recovery, retry, or partial-failure
handling. -/
theorem C6_error_prop (F : FrameworkE T P L G W O MS K)
    (shuffle : Nat → List (T × Option T) → List (T × Option T))
    (A : TrainerArgs T K MS W O)
    (es1 es2 : List Nat) (e : Nat)
    (hsplit : List.range A.epochs = es1 ++ e :: es2)
    (s1 : TrainState W O MS)
    (hpre : runEpochsE F A shuffle (train_data A.X_train A.y_train)
      (initState A) es1 = Except.ok s1)
    (bs1 bs2 : List (List (T × Option T))) (b : List (T × Option T))
    (hbs : batched A.batch_size (shuffle e (train_data A.X_train A.y_train)) =
      bs1 ++ b :: bs2)
    (s2 : TrainState W O MS)
    (hmid : runBatchesE F A s1 bs1 = Except.ok s2)
    (err : String)
    (herr : batchStepE F A s2 b = Except.error err) :
    trainerE F shuffle A = Except.error err := by
  show runEpochsE F A shuffle (train_data A.X_train A.y_train) (initState A)
    (List.range A.epochs) = Except.error err
  rw [hsplit, runEpochsE_append, hpre]
  show runEpochsE F A shuffle (train_data A.X_train A.y_train) s1 (e :: es2) =
    Except.error err
  simp only [runEpochsE, runEpochE]
  rw [hbs, runBatchesE_append, hmid]
  show (runBatchesE F A s2 (b :: bs2) >>= fun s3 =>
    runEpochsE F A shuffle (train_data A.X_train A.y_train) s3 es2) =
    Except.error err
  simp only [runBatchesE]
  rw [herr]
  rfl

/-- Witness for C6: a concrete single-batch run whose forward pass raises
`"boom"`; the trainer call returns exactly that error. -/
theorem C6_error_prop_witness :
    trainerE FwErr shuffle0 argsC6 = Except.error "boom" :=
  C6_error_prop FwErr shuffle0 argsC6 [] [] 0 rfl (initState argsC6) rfl
    [] [] [(0, none)] rfl (initState argsC6) rfl "boom" rfl
